import Mathlib

/-!
Shallow embedding of the gleip-runner job executor (src/runner.ts), the
browser control flow (src/runner.ts, src/browser-wss.ts) and the message
shapes (src/types.ts), together with proofs about the executor's redirect,
timeout and normalization behaviour and the browser session lifecycle.

External collaborators (the network, the WHATWG URL parser/resolver, the
HTTP/2 client, the browser engine) are modelled as parameters: `server k`
is the network's answer to the k-th request of a job, `parseUrl` stands for
`new URL(s)` (returning `none` where the constructor throws), `resolve` for
`new URL(location, base)`.
-/

namespace GleipRunner

/-- JS header values as they appear on a Node `IncomingMessage.headers`
object: either a plain string or an array of strings (e.g. `set-cookie`). -/
inductive HV where
  | str (s : String)
  | arr (l : List String)
deriving DecidableEq

/-- JS truthiness of a header value: an empty string is falsy, an array is
truthy. -/
def jsTruthy : HV → Bool
  | .str s => s ≠ ""
  | .arr _ => true

/-- `Array.isArray(value) ? value.join(", ") : value` from the header
normalization loop in `doHttp1Request`. -/
def joinHV : HV → String
  | .str s => s
  | .arr l => String.intercalate ", " l

/-- One server answer to one issued request: status code, raw headers, body,
and the time the server takes to produce the response (drives the timeout
model). -/
structure ServerResponse where
  statusCode : Nat
  headers : List (String × HV)
  body : String
  durationMs : Nat
deriving DecidableEq

/-- `execute.request` from types.ts: method, url, optional headers, optional
body. -/
structure HttpRequestSpec where
  method : String
  url : String
  headers : Option (List (String × String)) := none
  body : Option String := none
deriving DecidableEq

/-- `HttpOptions` from types.ts. -/
structure HttpOptions where
  httpVersion : Option String := none
  followRedirects : Option Bool := none
  maxRedirects : Option Nat := none
  keepAlive : Option Bool := none
  rejectUnauthorized : Option Bool := none
deriving DecidableEq

/-- The `Execute` message from types.ts (the fields the executor consumes). -/
structure Execute where
  jobId : String
  request : HttpRequestSpec
  options : Option HttpOptions := none
  timeoutMs : Option Nat := none
deriving DecidableEq

/-- `const options = execute.options ?? {}`. -/
def Execute.optionsD (e : Execute) : HttpOptions := e.options.getD {}

/-- A WHATWG URL as consumed by runner.ts: protocol, hostname, port (a
string, empty when defaulted), pathname and search. -/
structure Url where
  protocol : String
  hostname : String
  port : String
  pathname : String
  search : String
deriving DecidableEq

/-- The observable content of one HTTP request issued by `doHttp1Request`:
the `reqOptions` fields built from the job plus the body written with
`req.write`. -/
structure IssuedRequest where
  url : Url
  method : String
  headers : Option (List (String × String))
  body : Option String
  timeout : Nat
deriving DecidableEq

/-- The normalized response shape `{status, headers, body}` that
`doHttp1Request` resolves with. -/
structure NormResponse where
  status : Nat
  headers : List (String × String)
  body : String
deriving DecidableEq

instance {ε α : Type} [DecidableEq ε] [DecidableEq α] : DecidableEq (Except ε α) := fun a b =>
  match a, b with
  | .ok x, .ok y =>
      match decEq x y with
      | .isTrue h => .isTrue (congrArg Except.ok h)
      | .isFalse h => .isFalse (fun he => h (Except.ok.inj he))
  | .error x, .error y =>
      match decEq x y with
      | .isTrue h => .isTrue (congrArg Except.error h)
      | .isFalse h => .isFalse (fun he => h (Except.error.inj he))
  | .ok _, .error _ => .isFalse (fun he => Except.noConfusion he)
  | .error _, .ok _ => .isFalse (fun he => Except.noConfusion he)

/-- The header-normalization loop of runner.ts lines 181-184:
`if (value) headers[key] = Array.isArray(value) ? value.join(", ") : value`.
Falsy (empty-string) values are dropped. -/
def normalizeHeaders (hs : List (String × HV)) : List (String × String) :=
  hs.filterMap fun kv => if jsTruthy kv.2 then some (kv.1, joinHV kv.2) else none

/-- The `resolve({status, headers, body})` at the end of a non-redirect hop. -/
def normalizeResponse (r : ServerResponse) : NormResponse :=
  { status := r.statusCode, headers := normalizeHeaders r.headers, body := r.body }

/-- `res.headers.location` as read by the redirect branch. -/
def locationHV (res : ServerResponse) : Option HV :=
  res.headers.lookup "location"

/-- Truthiness of `res.headers.location` inside the redirect condition. -/
def hasLocation (res : ServerResponse) : Bool :=
  match locationHV res with
  | some v => jsTruthy v
  | none => false

/-- The string passed to `new URL(res.headers.location, url)`. -/
def locationValue (res : ServerResponse) : String :=
  match locationHV res with
  | some v => joinHV v
  | none => ""

/-- The redirect condition of runner.ts line 165: `res.statusCode &&
res.statusCode >= 300 && res.statusCode < 400 && res.headers.location`. -/
def isRedirectResponse (res : ServerResponse) : Bool :=
  res.statusCode != 0 && decide (300 ≤ res.statusCode) &&
    decide (res.statusCode < 400) && hasLocation res

/-- What one executor invocation produces: the sequence of requests it put on
the wire, the wall-clock milliseconds it consumed, and the settled promise
(normalized response, or rejection message). -/
structure ExecOutcome where
  trace : List IssuedRequest
  elapsedMs : Nat
  outcome : Except String NormResponse
deriving DecidableEq

/-- `Runner.doHttp1Request` (runner.ts lines 129-205).  The `timeout` request
option is re-read from the job and re-armed on every hop; a hop whose answer
takes at least `timeout` milliseconds fires the `"timeout"` handler, which
destroys the request and rejects with `"Request timeout"`.  A redirect
response (status 300-399 with a truthy Location header) is followed, with the
same `execute` message, when `followRedirects` holds and `redirectCount` has
not reached `maxRedirects`; reaching the limit rejects with the
`"Max redirects (...) exceeded"` error.  `httpVersion` is threaded through
the recursion exactly as in the source, where it is never consulted. -/
def doHttp1Request (resolve : String → Url → Url) (server : Nat → ServerResponse)
    (execute : Execute) (url : Url) (httpVersion : String)
    (followRedirects : Bool) (maxRedirects : Nat) (redirectCount : Nat) : ExecOutcome :=
  let timeout := execute.timeoutMs.getD 30000
  let req : IssuedRequest :=
    { url := url
      method := execute.request.method
      headers := execute.request.headers
      body := execute.request.body
      timeout := timeout }
  let res := server redirectCount
  if timeout ≤ res.durationMs then
    { trace := [req], elapsedMs := timeout, outcome := .error "Request timeout" }
  else if followRedirects && isRedirectResponse res then
    if h : maxRedirects ≤ redirectCount then
      { trace := [req], elapsedMs := res.durationMs
        outcome := .error ("Max redirects (" ++ toString maxRedirects ++ ") exceeded") }
    else
      let rest := doHttp1Request resolve server execute (resolve (locationValue res) url)
        httpVersion followRedirects maxRedirects (redirectCount + 1)
      { trace := req :: rest.trace, elapsedMs := res.durationMs + rest.elapsedMs
        outcome := rest.outcome }
  else
    { trace := [req], elapsedMs := res.durationMs, outcome := .ok (normalizeResponse res) }
termination_by maxRedirects - redirectCount
decreasing_by omega

/-- `Runner.executeHttp1` (runner.ts lines 116-127): applies the option
defaults and starts the hop recursion at `redirectCount = 0`.  A URL the
WHATWG parser rejects makes `new URL(execute.request.url)` throw, which the
caller's try/catch sees as a rejection; that is modelled by `parseUrl`
returning `none` and the `"Invalid URL"` error outcome. -/
def executeHttp1 (parseUrl : String → Option Url) (resolve : String → Url → Url)
    (server : Nat → ServerResponse) (execute : Execute) : ExecOutcome :=
  match parseUrl execute.request.url with
  | none => { trace := [], elapsedMs := 0, outcome := .error "Invalid URL" }
  | some url =>
    let options := execute.optionsD
    let httpVersion := options.httpVersion.getD "1.1"
    let followRedirects := options.followRedirects.getD true
    let maxRedirects := options.maxRedirects.getD 10
    doHttp1Request resolve server execute url httpVersion followRedirects maxRedirects 0

/-- `result.status` strings of types.ts. -/
inductive ResultStatus where
  | success
  | error
deriving DecidableEq

/-- `Result.response` from types.ts. -/
structure ResponsePayload where
  status : Nat
  headers : List (String × String)
  body : String
  timeMs : Nat
deriving DecidableEq

/-- The `Result` message from types.ts. -/
structure Result where
  jobId : String
  status : ResultStatus
  response : Option ResponsePayload := none
  error : Option String := none
deriving DecidableEq

/-- The two branches of `handleExecute`'s try/catch (runner.ts lines 87-110):
a fulfilled execution becomes a success Result carrying the normalized
response, a rejection becomes an error Result carrying the message. -/
def mkResult (jobId : String) (elapsedMs : Nat) : Except String NormResponse → Result
  | .ok r =>
      { jobId := jobId, status := .success
        response := some { status := r.status, headers := r.headers, body := r.body,
                           timeMs := elapsedMs }
        error := none }
  | .error e => { jobId := jobId, status := .error, response := none, error := some e }

/-- `Runner.handleExecute` (runner.ts lines 80-114): dispatches on
`options.httpVersion === "2"` (the HTTP/2 executor is abstracted as
`http2Exec`, returning its elapsed time and settled promise), wraps the
outcome with `mkResult`, and sends the result exactly once.  The returned
list is the sequence of `this.send(...)` calls the handler performs. -/
def handleExecute (http2Exec : Execute → Nat × Except String NormResponse)
    (parseUrl : String → Option Url) (resolve : String → Url → Url)
    (server : Nat → ServerResponse) (execute : Execute) : List Result :=
  let r :=
    if execute.optionsD.httpVersion = some "2" then
      let o := http2Exec execute
      mkResult execute.jobId o.1 o.2
    else
      let o := executeHttp1 parseUrl resolve server execute
      mkResult execute.jobId o.elapsedMs o.outcome
  [r]

/-- An `Execute` message with only the `httpVersion` option replaced. -/
def withHttpVersion (e : Execute) (hv : Option String) : Execute :=
  { e with options := some { e.optionsD with httpVersion := hv } }

/-! ### Browser control flow -/

/-- `browser:start` options from types.ts. -/
structure BrowserStartOptions where
  url : Option String := none
  viewportWidth : Option Nat := none
  viewportHeight : Option Nat := none
  headless : Option Bool := none
deriving DecidableEq

/-- The `browser:start` command from types.ts. -/
structure BrowserStart where
  sessionId : String
  options : Option BrowserStartOptions := none
deriving DecidableEq

/-- The `browser:stop` command from types.ts. -/
structure BrowserStop where
  sessionId : String
deriving DecidableEq

/-- `browser:ack` statuses from types.ts. -/
inductive AckStatus where
  | started
  | stopped
  | error
deriving DecidableEq

/-- The `browser:ack` message from types.ts. -/
structure BrowserAck where
  sessionId : String
  status : AckStatus
  error : Option String := none
deriving DecidableEq

/-- Mouse buttons of the click input action. -/
inductive MouseButton where
  | left
  | right
  | middle
deriving DecidableEq

/-- `KeyModifiers` from types.ts. -/
structure KeyModifiers where
  alt : Option Bool := none
  ctrl : Option Bool := none
  meta : Option Bool := none
  shift : Option Bool := none
deriving DecidableEq

/-- `BrowserInputAction` from types.ts (`type` is spelled `typeText` because
`type` is a Lean keyword). -/
inductive BrowserInputAction where
  | click (x y : Int) (button : Option MouseButton)
  | dblclick (x y : Int)
  | move (x y : Int)
  | scroll (x y deltaX deltaY : Int)
  | keydown (key : String) (modifiers : Option KeyModifiers)
  | keyup (key : String) (modifiers : Option KeyModifiers)
  | typeText (text : String)
  | navigate (url : String)
  | refresh
deriving DecidableEq

/-- The `browser:input` message from types.ts. -/
structure BrowserInputEvent where
  sessionId : String
  action : BrowserInputAction
deriving DecidableEq

/-- The observable state of one `BrowserSession` object
(src/browser-session.ts): its id and whether `browser !== null && page !==
null`. -/
structure BrowserSession where
  sessionId : String
  browserActive : Bool
deriving DecidableEq

/-- `BrowserSession.isActive`: `this.browser !== null && this.page !== null`. -/
def BrowserSession.isActive (s : BrowserSession) : Bool := s.browserActive

/-- The observable state of the `BrowserWSS` channel (src/browser-wss.ts):
whether its socket is open and which session is attached (`this.session`). -/
structure BrowserWSSState where
  connected : Bool
  session : Option BrowserSession
deriving DecidableEq

/-- `BrowserWSS.getSession`. -/
def BrowserWSSState.getSession (w : BrowserWSSState) : Option BrowserSession := w.session

/-- The browser-related fields of the `Runner` (src/runner.ts):
`this.browserWSS` and `this.pendingBrowserStart`. -/
structure RunnerState where
  browserWSS : Option BrowserWSSState
  pendingBrowserStart : Option BrowserStart
deriving DecidableEq

/-- The duplicate-start guard of runner.ts line 275:
`this.browserWSS?.getSession()?.isActive()`. -/
def activeSessionCheck (s : RunnerState) : Bool :=
  match s.browserWSS with
  | some w =>
      match w.getSession with
      | some sess => sess.isActive
      | none => false
  | none => false

/-- `Runner.startBrowser` (runner.ts lines 299-320) run to completion:
creates the session, starts it (outcome given by `startOk`; a failing start
throws with message `errMsg`), and on success attaches it to the channel —
`BrowserWSS.attachSession` (browser-wss.ts lines 112-127) detaches any
previously attached session and acknowledges with `status = "started"`.  On
failure an error Ack is sent.  Either way `pendingBrowserStart` is cleared.
Returns the new channel state, the new pending-start marker, and the sent
Acks. -/
def startBrowser (startOk : Bool) (errMsg : String) (m : BrowserStart)
    (w : BrowserWSSState) : BrowserWSSState × Option BrowserStart × List BrowserAck :=
  if startOk then
    ({ w with session := some { sessionId := m.sessionId, browserActive := true } },
      none,
      [{ sessionId := m.sessionId, status := .started }])
  else
    (w, none, [{ sessionId := m.sessionId, status := .error, error := some errMsg }])

/-- `Runner.handleBrowserStart` (runner.ts lines 271-297), with the started
command run to completion: a start arriving while the attached session is
active is dropped before anything else happens; otherwise the request is
held pending and, depending on the channel state, the channel is created
(still connecting), the start runs immediately, or the request stays pending
until the channel connects. -/
def handleBrowserStart (startOk : Bool) (errMsg : String) (m : BrowserStart)
    (s : RunnerState) : RunnerState × List BrowserAck :=
  if activeSessionCheck s then (s, [])
  else
    match s.browserWSS with
    | none =>
        ({ browserWSS := some { connected := false, session := none },
           pendingBrowserStart := some m }, [])
    | some w =>
        if w.connected then
          let r := startBrowser startOk errMsg m w
          ({ browserWSS := some r.1, pendingBrowserStart := r.2.1 }, r.2.2)
        else
          ({ s with pendingBrowserStart := some m }, [])

/-- `Runner.handleBrowserStop` (runner.ts lines 322-338): with a channel and
an attached session whose id matches, `detachSession` clears the attachment
(stopping capture and the session) and a `status = "stopped"` Ack is sent;
in every other case nothing happens and nothing is sent. -/
def handleBrowserStop (m : BrowserStop) (s : RunnerState) : RunnerState × List BrowserAck :=
  match s.browserWSS with
  | none => (s, [])
  | some w =>
      match w.session with
      | some sess =>
          if sess.sessionId = m.sessionId then
            ({ s with browserWSS := some { w with session := none } },
              [{ sessionId := m.sessionId, status := .stopped }])
          else (s, [])
      | none => (s, [])

/-- `BrowserWSS.handleMessage` for a `browser:input` frame (browser-wss.ts
lines 89-110): the action reaches `session.handleInput` exactly when a
session is attached, its id equals the frame's id, and it is active; the
frame is otherwise dropped, and nothing is ever sent outward on this path
(handler errors are only logged).  Returns the forwarded action, if any,
and the messages sent outward. -/
def wssHandleMessage (session : Option BrowserSession) (m : BrowserInputEvent) :
    Option BrowserInputAction × List BrowserAck :=
  match session with
  | some sess =>
      if sess.sessionId = m.sessionId && sess.isActive then (some m.action, [])
      else (none, [])
  | none => (none, [])

/-! ### Interleaving model of concurrent `browser:start` handling

`handleBrowserStart` and `startBrowser` suspend at each `await`; between
suspensions the WebSocket message handler can run for another inbound
command.  `CStep` is the resulting small-step relation over the runner's
browser state.  Session objects get stable indices into `sessions` so that
two distinct `BrowserSession` objects can be observed at the same time, as
in the process heap. -/

/-- One `BrowserSession` object in the interleaving model. -/
structure CSession where
  sessionId : String
  active : Bool
deriving DecidableEq

/-- Where an in-flight `startBrowser` invocation is suspended:
`starting` = inside `await session.start()`; `detaching` = the started
session is active and `attachSession` is awaiting the stop of the previously
attached session. -/
inductive TaskPhase where
  | starting
  | detaching
deriving DecidableEq

/-- One in-flight `startBrowser` invocation: the command it serves, the index
of the `BrowserSession` object it created, and its suspension point. -/
structure CTask where
  msg : BrowserStart
  sess : Nat
  phase : TaskPhase
deriving DecidableEq

/-- The runner's browser state in the interleaving model. -/
structure CState where
  sessions : List CSession
  wssExists : Bool
  wssConnected : Bool
  attached : Option Nat
  pending : Option BrowserStart
  tasks : List CTask
deriving DecidableEq

/-- `this.browserWSS?.getSession()?.isActive()` in the interleaving model. -/
def activeAttachedC (s : CState) : Bool :=
  s.wssExists &&
    match s.attached with
    | some i =>
        match s.sessions[i]? with
        | some c => c.active
        | none => false
    | none => false

/-- Deactivate the attached session object (the effect of
`detachSession`'s `session.stop()`). -/
def stopAttached (ss : List CSession) : Option Nat → List CSession
  | some i =>
      match ss[i]? with
      | some c => ss.set i { c with active := false }
      | none => ss
  | none => ss

/-- Small-step semantics of concurrent `browser:start` processing.  Each
constructor is one synchronous block of the source between two `await`
suspension points (or a whole handler when it has no suspension on that
path):
* `recvStartActive`: handleBrowserStart drops a start while the attached
  session is active (runner.ts 275-278);
* `recvStartNoWss`: no channel yet — hold the start pending and begin
  connecting (runner.ts 281-292);
* `recvStartConnecting`: channel exists but is not connected — hold the
  start pending (runner.ts 281, 293);
* `recvStartConnected`: channel connected — hold the start pending, create
  the `BrowserSession` object and suspend inside `session.start()`
  (runner.ts 281, 295, 299-307);
* `wssConnectedPending` / `wssConnectedNoPending`: the channel's `open`
  event; a pending start launches `startBrowser` (runner.ts 340-346);
* `startDoneNoAttach`: `session.start()` completes with no session attached
  — the session is active and `attachSession` runs synchronously to
  completion, attaching it and clearing the pending marker (runner.ts
  307-309, browser-wss.ts 112-127);
* `startDoneWithAttach`: `session.start()` completes while another session
  is attached — the new session is active and `attachSession` suspends
  awaiting the old session's stop (browser-wss.ts 113-115, 129-135);
* `detachOldDone`: the old session's stop completes; the new session is
  attached and the pending marker cleared;
* `startFail`: `session.start()` rejects — the error Ack path clears the
  pending marker (runner.ts 311-319). -/
inductive CStep : CState → CState → Prop where
  | recvStartActive (s : CState) (m : BrowserStart) :
      activeAttachedC s = true →
      CStep s s
  | recvStartNoWss (s : CState) (m : BrowserStart) :
      activeAttachedC s = false → s.wssExists = false →
      CStep s { s with wssExists := true, wssConnected := false, pending := some m }
  | recvStartConnecting (s : CState) (m : BrowserStart) :
      activeAttachedC s = false → s.wssExists = true → s.wssConnected = false →
      CStep s { s with pending := some m }
  | recvStartConnected (s : CState) (m : BrowserStart) :
      activeAttachedC s = false → s.wssExists = true → s.wssConnected = true →
      CStep s { s with pending := some m,
                       sessions := s.sessions ++ [{ sessionId := m.sessionId, active := false }],
                       tasks := s.tasks ++ [{ msg := m, sess := s.sessions.length,
                                              phase := .starting }] }
  | wssConnectedNoPending (s : CState) :
      s.wssExists = true → s.wssConnected = false → s.pending = none →
      CStep s { s with wssConnected := true }
  | wssConnectedPending (s : CState) (m : BrowserStart) :
      s.wssExists = true → s.wssConnected = false → s.pending = some m →
      CStep s { s with wssConnected := true,
                       sessions := s.sessions ++ [{ sessionId := m.sessionId, active := false }],
                       tasks := s.tasks ++ [{ msg := m, sess := s.sessions.length,
                                              phase := .starting }] }
  | startDoneNoAttach (s : CState) (i : Nat) (t : CTask) :
      s.tasks[i]? = some t → t.phase = .starting → s.attached = none →
      CStep s { s with sessions := s.sessions.set t.sess
                         { sessionId := t.msg.sessionId, active := true },
                       attached := some t.sess, pending := none,
                       tasks := s.tasks.eraseIdx i }
  | startDoneWithAttach (s : CState) (i : Nat) (t : CTask) (j : Nat) :
      s.tasks[i]? = some t → t.phase = .starting → s.attached = some j →
      CStep s { s with sessions := s.sessions.set t.sess
                         { sessionId := t.msg.sessionId, active := true },
                       tasks := s.tasks.set i { t with phase := .detaching } }
  | detachOldDone (s : CState) (i : Nat) (t : CTask) :
      s.tasks[i]? = some t → t.phase = .detaching →
      CStep s { s with sessions := stopAttached s.sessions s.attached,
                       attached := some t.sess, pending := none,
                       tasks := s.tasks.eraseIdx i }
  | startFail (s : CState) (i : Nat) (t : CTask) :
      s.tasks[i]? = some t → t.phase = .starting →
      CStep s { s with pending := none, tasks := s.tasks.eraseIdx i }

/-- Two `BrowserSession` objects report `isActive()` at once. -/
def twoActiveSessions (s : CState) : Bool :=
  2 ≤ (s.sessions.filter (·.active)).length

/-- The runner's initial browser state. -/
def cInit : CState :=
  { sessions := [], wssExists := false, wssConnected := false,
    attached := none, pending := none, tasks := [] }

/-- `browser:start` for session "A". -/
def mA : BrowserStart := { sessionId := "A" }

/-- `browser:start` for session "B". -/
def mB : BrowserStart := { sessionId := "B" }

/-- After `browser:start A` with no channel yet. -/
def c1 : CState :=
  { cInit with wssExists := true, wssConnected := false, pending := some mA }

/-- After the channel connects and `startBrowser A` suspends in `start()`. -/
def c2 : CState :=
  { c1 with wssConnected := true,
            sessions := [{ sessionId := "A", active := false }],
            tasks := [{ msg := mA, sess := 0, phase := .starting }] }

/-- After `browser:start B` arrives while A's start is still in flight: the
duplicate-start guard sees no attached session and lets B through. -/
def c3 : CState :=
  { c2 with pending := some mB,
            sessions := [{ sessionId := "A", active := false },
                         { sessionId := "B", active := false }],
            tasks := [{ msg := mA, sess := 0, phase := .starting },
                      { msg := mB, sess := 1, phase := .starting }] }

/-- After A's `start()` completes and A attaches. -/
def c4 : CState :=
  { c3 with sessions := [{ sessionId := "A", active := true },
                         { sessionId := "B", active := false }],
            attached := some 0, pending := none,
            tasks := [{ msg := mB, sess := 1, phase := .starting }] }

/-- After B's `start()` completes while A is attached: B is active and
`attachSession` is awaiting A's stop — A and B are both active. -/
def c5 : CState :=
  { c4 with sessions := [{ sessionId := "A", active := true },
                         { sessionId := "B", active := true }],
            tasks := [{ msg := mB, sess := 1, phase := .detaching }] }

/-! ### Concrete instances used by witnesses and counterexamples -/

/-- A concrete URL for witness executions. -/
def urlW : Url :=
  { protocol := "http:", hostname := "example.test", port := "",
    pathname := "/start", search := "" }

/-- A URL parser accepting exactly the witness URL. -/
def parseUrlW : String → Option Url := fun s =>
  if s = "http://example.test/start" then some urlW else none

/-- Location resolution that substitutes the location for the path. -/
def resolveW : String → Url → Url := fun loc u => { u with pathname := loc }

/-- A job with `timeoutMs = 100` and default options. -/
def exTimeout : Execute :=
  { jobId := "job-timeout"
    request := { method := "GET", url := "http://example.test/start" }
    timeoutMs := some 100 }

/-- A server whose first answer is a 301 redirect taking 60 ms and whose
second answer is a 200 taking another 60 ms: each hop is inside the 100 ms
timeout, the sequence is not. -/
def serverSlowHops : Nat → ServerResponse := fun k =>
  if k = 0 then
    { statusCode := 301, headers := [("location", .str "/next")], body := "",
      durationMs := 60 }
  else
    { statusCode := 200, headers := [("content-type", .str "text/plain")], body := "ok",
      durationMs := 60 }

/-- A server that answers instantly but needs 5 seconds of thinking for the
body: modelled as a single hop taking 5000 ms. -/
def serverDelayed : Nat → ServerResponse := fun _ =>
  { statusCode := 200, headers := [], body := "late", durationMs := 5000 }

/-- A server that always redirects to itself, instantly. -/
def serverAlwaysRedirect : Nat → ServerResponse := fun _ =>
  { statusCode := 301, headers := [("location", .str "/start")], body := "",
    durationMs := 0 }

/-- A job with `followRedirects = true` and `maxRedirects = 5`. -/
def exRedirect5 : Execute :=
  { jobId := "job-redirect"
    request := { method := "GET", url := "http://example.test/start" }
    options := some { followRedirects := some true, maxRedirects := some 5 } }

/-- A job with `followRedirects = false`. -/
def exNoFollow : Execute :=
  { jobId := "job-nofollow"
    request := { method := "POST", url := "http://example.test/start",
                 headers := some [("x-a", "1")], body := some "payload" }
    options := some { followRedirects := some false } }

/-- A server answering 302 with a Location header, instantly. -/
def server302 : Nat → ServerResponse := fun _ =>
  { statusCode := 302, headers := [("location", .str "/elsewhere"),
                                   ("content-type", .str "text/html")],
    body := "<a>moved</a>", durationMs := 0 }

/-- The single request `exTimeout` issues against `serverDelayed`. -/
def reqTimeoutW : IssuedRequest :=
  { url := urlW, method := "GET", headers := none, body := none, timeout := 100 }

/-- A trivial HTTP/2 executor used to instantiate theorems about the
dispatcher. -/
def http2ExecW : Execute → Nat × Except String NormResponse := fun _ =>
  (0, .error "http2 unavailable")

/-- An active session object named "A". -/
def sessionAW : BrowserSession := { sessionId := "A", browserActive := true }

/-- A runner whose channel is connected with active session "A" attached. -/
def runnerActiveW : RunnerState :=
  { browserWSS := some { connected := true, session := some sessionAW },
    pendingBrowserStart := none }

/-! ### Theorems -/

theorem doHttp1Request_congr_aux (resolve : String → Url → Url) (server : Nat → ServerResponse)
    (e1 e2 : Execute) (hreq : e1.request = e2.request) (ht : e1.timeoutMs = e2.timeoutMs) :
    ∀ (n : Nat) (url : Url) (v1 v2 : String) (f : Bool) (m k : Nat), m - k ≤ n →
      doHttp1Request resolve server e1 url v1 f m k
        = doHttp1Request resolve server e2 url v2 f m k := by
  intro n
  induction n with
  | zero =>
      intro url v1 v2 f m k hn
      have hmk : m ≤ k := by omega
      conv_lhs => rw [doHttp1Request]
      conv_rhs => rw [doHttp1Request]
      rw [hreq, ht]
      repeat' split
      all_goals rfl
  | succ n ih =>
      intro url v1 v2 f m k hn
      conv_lhs => rw [doHttp1Request]
      conv_rhs => rw [doHttp1Request]
      rw [hreq, ht]
      repeat' split
      all_goals try rfl
      all_goals
        have hrec := ih (resolve (locationValue (server k)) url) v1 v2 f m (k + 1) (by omega)
      all_goals simp only [hrec]

/-- `doHttp1Request` reads only `request` and `timeoutMs` from the job and
never consults `httpVersion`. -/
theorem doHttp1Request_congr (resolve : String → Url → Url) (server : Nat → ServerResponse)
    (e1 e2 : Execute) (hreq : e1.request = e2.request) (ht : e1.timeoutMs = e2.timeoutMs)
    (url : Url) (v1 v2 : String) (f : Bool) (m k : Nat) :
    doHttp1Request resolve server e1 url v1 f m k
      = doHttp1Request resolve server e2 url v2 f m k :=
  doHttp1Request_congr_aux resolve server e1 e2 hreq ht (m - k) url v1 v2 f m k le_rfl


/-- Normalization keeps a truthy header: if the first entry for `key` has a
truthy value, the normalized map still answers `key` with the joined value. -/
theorem lookup_normalizeHeaders (key : String) :
    ∀ (hs : List (String × HV)) (v : HV), hs.lookup key = some v → jsTruthy v = true →
      (normalizeHeaders hs).lookup key = some (joinHV v) := by
  intro hs
  induction hs with
  | nil => intro v hv _; simp [List.lookup] at hv
  | cons hd tl ih =>
      intro v hv htr
      obtain ⟨k0, v0⟩ := hd
      simp only [List.lookup_cons] at hv
      by_cases hk : key = k0
      · subst hk
        simp only [beq_self_eq_true] at hv
        simp only [Option.some.injEq] at hv
        subst hv
        simp [normalizeHeaders, List.filterMap_cons, htr, List.lookup_cons]
      · have hbk : (key == k0) = false := beq_false_of_ne hk
        rw [hbk] at hv
        have := ih v hv htr
        simp only [normalizeHeaders, List.filterMap_cons]
        by_cases htr0 : jsTruthy v0 = true
        · simp [htr0, List.lookup_cons, hbk]
          exact this
        · simp only [htr0]
          simp only [Bool.false_eq_true, if_false] at *
          simpa [htr0] using this


theorem doHttp1Request_trace_aux (resolve : String → Url → Url) (server : Nat → ServerResponse)
    (execute : Execute) :
    ∀ (n : Nat) (url : Url) (v : String) (f : Bool) (m k : Nat), m - k ≤ n →
      ∀ r ∈ (doHttp1Request resolve server execute url v f m k).trace,
        r.method = execute.request.method ∧ r.headers = execute.request.headers ∧
          r.body = execute.request.body := by
  intro n
  induction n with
  | zero =>
      intro url v f m k hn r hr
      have hmk : m ≤ k := by omega
      rw [doHttp1Request] at hr
      repeat' split at hr
      all_goals simp only [List.mem_singleton] at hr; subst hr; exact ⟨rfl, rfl, rfl⟩
  | succ n ih =>
      intro url v f m k hn r hr
      rw [doHttp1Request] at hr
      repeat' split at hr
      all_goals try (simp only [List.mem_singleton] at hr; subst hr; exact ⟨rfl, rfl, rfl⟩)
      all_goals simp only [List.mem_cons] at hr
      all_goals rcases hr with hr | hr
      all_goals try (subst hr; exact ⟨rfl, rfl, rfl⟩)
      all_goals exact ih (resolve (locationValue (server k)) url) v f m (k + 1) (by omega) r hr

theorem doHttp1Request_redirect_limit_aux (resolve : String → Url → Url)
    (server : Nat → ServerResponse) (execute : Execute)
    (hfast : ∀ i, (server i).durationMs < execute.timeoutMs.getD 30000)
    (hredir : ∀ i, isRedirectResponse (server i) = true) :
    ∀ (n : Nat) (url : Url) (v : String) (m k : Nat), m - k ≤ n → k ≤ m →
      (doHttp1Request resolve server execute url v true m k).trace.length = m + 1 - k ∧
      (doHttp1Request resolve server execute url v true m k).outcome =
        Except.error ("Max redirects (" ++ toString m ++ ") exceeded") := by
  intro n
  induction n with
  | zero =>
      intro url v m k hn hk
      have hmk : m = k := by omega
      rw [doHttp1Request]
      rw [if_neg (Nat.not_le.mpr (hfast k))]
      simp only [Bool.true_and, hredir k]
      rw [if_pos trivial, dif_pos (by omega)]
      subst hmk
      constructor
      · simp
      · rfl
  | succ n ih =>
      intro url v m k hn hk
      rw [doHttp1Request]
      rw [if_neg (Nat.not_le.mpr (hfast k))]
      simp only [Bool.true_and, hredir k]
      rw [if_pos trivial]
      by_cases hmk : m ≤ k
      · rw [dif_pos hmk]
        have : m = k := by omega
        subst this
        constructor
        · simp
        · rfl
      · rw [dif_neg hmk]
        have hrec := ih (resolve (locationValue (server k)) url) v m (k + 1)
          (by omega) (by omega)
        constructor
        · simp only [List.length_cons, hrec.1]
          omega
        · exact hrec.2

theorem doHttp1Request_no_timeout_aux (resolve : String → Url → Url)
    (server : Nat → ServerResponse) (execute : Execute)
    (hfast : ∀ i, (server i).durationMs < execute.timeoutMs.getD 30000) :
    ∀ (n : Nat) (url : Url) (v : String) (f : Bool) (m k : Nat), m - k ≤ n →
      (∃ r, (doHttp1Request resolve server execute url v f m k).outcome = Except.ok r) ∨
        (doHttp1Request resolve server execute url v f m k).outcome =
          Except.error ("Max redirects (" ++ toString m ++ ") exceeded") := by
  intro n
  induction n with
  | zero =>
      intro url v f m k hn
      rw [doHttp1Request]
      rw [if_neg (Nat.not_le.mpr (hfast k))]
      split
      · rw [dif_pos (by omega)]
        exact Or.inr rfl
      · exact Or.inl ⟨normalizeResponse (server k), rfl⟩
  | succ n ih =>
      intro url v f m k hn
      rw [doHttp1Request]
      rw [if_neg (Nat.not_le.mpr (hfast k))]
      split
      · by_cases hmk : m ≤ k
        · rw [dif_pos hmk]
          exact Or.inr rfl
        · rw [dif_neg hmk]
          have hrec := ih (resolve (locationValue (server k)) url) v f m (k + 1) (by omega)
          simpa using hrec
      · exact Or.inl ⟨normalizeResponse (server k), rfl⟩


/-- C1 counterexample: a job with `timeoutMs = 100` whose redirect chain has
two hops of 60 ms each.  Total elapsed time is 120 ms — beyond the
configured timeout, with every hop individually inside it — yet the job
succeeds: the timeout is not a deadline over the whole multi-hop sequence. -/
theorem timeout_not_whole_sequence_counterexample :
    (serverSlowHops 0).durationMs < exTimeout.timeoutMs.getD 30000 ∧
    (serverSlowHops 1).durationMs < exTimeout.timeoutMs.getD 30000 ∧
    (executeHttp1 parseUrlW resolveW serverSlowHops exTimeout).elapsedMs = 120 ∧
    exTimeout.timeoutMs.getD 30000 <
      (executeHttp1 parseUrlW resolveW serverSlowHops exTimeout).elapsedMs ∧
    (executeHttp1 parseUrlW resolveW serverSlowHops exTimeout).outcome =
      Except.ok { status := 200, headers := [("content-type", "text/plain")], body := "ok" } := by
  have heval : executeHttp1 parseUrlW resolveW serverSlowHops exTimeout =
      { trace := [{ url := urlW, method := "GET", headers := none, body := none, timeout := 100 },
                  { url := { urlW with pathname := "/next" }, method := "GET", headers := none,
                    body := none, timeout := 100 }]
        elapsedMs := 120
        outcome := Except.ok { status := 200, headers := [("content-type", "text/plain")],
                               body := "ok" } } := by
    rw [executeHttp1]
    simp only [parseUrlW, exTimeout, Execute.optionsD]
    norm_num
    rw [doHttp1Request]
    norm_num [serverSlowHops, isRedirectResponse, hasLocation, locationHV, locationValue,
      jsTruthy, joinHV]
    rw [doHttp1Request]
    simp +decide [serverSlowHops, isRedirectResponse, hasLocation, locationHV, locationValue,
      normalizeResponse, normalizeHeaders, jsTruthy, joinHV, resolveW]
  refine ⟨by norm_num [serverSlowHops, exTimeout], by norm_num [serverSlowHops, exTimeout],
    ?_, ?_, ?_⟩ <;> rw [heval] <;> norm_num [exTimeout]

/-- C1 (amended): `timeoutMs` is enforced per redirect hop, not over the
whole sequence.  A hop whose answer takes at least `timeoutMs` aborts the
request and fails the job with `"Request timeout"`; when every hop answers
within `timeoutMs` the job never fails with a timeout — it either resolves
with a normalized response or fails with the redirect-limit error — no
matter how large the total elapsed time grows. -/
theorem timeout_enforced_per_hop (resolve : String → Url → Url)
    (server : Nat → ServerResponse) (execute : Execute) (url : Url) (v : String)
    (f : Bool) (m : Nat) :
    ((execute.timeoutMs.getD 30000 ≤ (server 0).durationMs) →
      doHttp1Request resolve server execute url v f m 0 =
        { trace := [{ url := url, method := execute.request.method,
                      headers := execute.request.headers, body := execute.request.body,
                      timeout := execute.timeoutMs.getD 30000 }]
          elapsedMs := execute.timeoutMs.getD 30000
          outcome := Except.error "Request timeout" }) ∧
    ((∀ i, (server i).durationMs < execute.timeoutMs.getD 30000) →
      (∃ r, (doHttp1Request resolve server execute url v f m 0).outcome = Except.ok r) ∨
        (doHttp1Request resolve server execute url v f m 0).outcome =
          Except.error ("Max redirects (" ++ toString m ++ ") exceeded")) := by
  constructor
  · intro h
    rw [doHttp1Request, if_pos h]
  · intro hfast
    exact doHttp1Request_no_timeout_aux resolve server execute hfast m url v f m 0 (by omega)

theorem timeout_enforced_per_hop_witness :
    (exTimeout.timeoutMs.getD 30000 ≤ (serverDelayed 0).durationMs) ∧
    doHttp1Request resolveW serverDelayed exTimeout urlW "1.1" true 10 0 =
      { trace := [{ url := urlW, method := "GET", headers := none, body := none, timeout := 100 }]
        elapsedMs := 100
        outcome := Except.error "Request timeout" } ∧
    (∀ i, (serverAlwaysRedirect i).durationMs < exRedirect5.timeoutMs.getD 30000) ∧
    ((∃ r, (doHttp1Request resolveW serverAlwaysRedirect exRedirect5 urlW "1.1" true 5 0).outcome
        = Except.ok r) ∨
      (doHttp1Request resolveW serverAlwaysRedirect exRedirect5 urlW "1.1" true 5 0).outcome =
        Except.error ("Max redirects (" ++ toString 5 ++ ") exceeded")) := by
  have h1 : exTimeout.timeoutMs.getD 30000 ≤ (serverDelayed 0).durationMs := by
    norm_num [exTimeout, serverDelayed]
  have h2 : ∀ i, (serverAlwaysRedirect i).durationMs < exRedirect5.timeoutMs.getD 30000 := by
    intro i
    norm_num [exRedirect5, serverAlwaysRedirect]
  refine ⟨h1, ?_, h2, ?_⟩
  · have := (timeout_enforced_per_hop resolveW serverDelayed exTimeout urlW "1.1" true 10).1 h1
    simpa [exTimeout] using this
  · exact (timeout_enforced_per_hop resolveW serverAlwaysRedirect exRedirect5 urlW "1.1" true 5).2 h2

/-- C2: with `followRedirects` in effect and a server whose every answer is
a redirect answered within the timeout, the executor issues exactly
`maxRedirects + 1` requests — the initial request plus `maxRedirects`
redirect hops — and fails with the redirect-limit error; the
`(maxRedirects+1)`-th redirect hop is never issued. -/
theorem redirect_limit_exact (parseUrl : String → Option Url) (resolve : String → Url → Url)
    (server : Nat → ServerResponse) (ex : Execute) (url : Url)
    (hparse : parseUrl ex.request.url = some url)
    (hfollow : ex.optionsD.followRedirects.getD true = true)
    (hfast : ∀ i, (server i).durationMs < ex.timeoutMs.getD 30000)
    (hredir : ∀ i, isRedirectResponse (server i) = true) :
    (executeHttp1 parseUrl resolve server ex).trace.length
        = ex.optionsD.maxRedirects.getD 10 + 1 ∧
    (executeHttp1 parseUrl resolve server ex).outcome =
      Except.error ("Max redirects (" ++ toString (ex.optionsD.maxRedirects.getD 10)
        ++ ") exceeded") := by
  rw [executeHttp1, hparse]
  simp only [hfollow]
  have h := doHttp1Request_redirect_limit_aux resolve server ex hfast hredir
    (ex.optionsD.maxRedirects.getD 10) url (ex.optionsD.httpVersion.getD "1.1")
    (ex.optionsD.maxRedirects.getD 10) 0 (by omega) (by omega)
  refine ⟨?_, h.2⟩
  rw [h.1]
  omega

theorem redirect_limit_exact_witness :
    parseUrlW exRedirect5.request.url = some urlW ∧
    exRedirect5.optionsD.followRedirects.getD true = true ∧
    (∀ i, (serverAlwaysRedirect i).durationMs < exRedirect5.timeoutMs.getD 30000) ∧
    (∀ i, isRedirectResponse (serverAlwaysRedirect i) = true) ∧
    (executeHttp1 parseUrlW resolveW serverAlwaysRedirect exRedirect5).trace.length = 6 ∧
    (executeHttp1 parseUrlW resolveW serverAlwaysRedirect exRedirect5).outcome =
      Except.error "Max redirects (5) exceeded" := by
  have hparse : parseUrlW exRedirect5.request.url = some urlW := by
    norm_num [parseUrlW, exRedirect5]
  have hfollow : exRedirect5.optionsD.followRedirects.getD true = true := rfl
  have hfast : ∀ i, (serverAlwaysRedirect i).durationMs < exRedirect5.timeoutMs.getD 30000 := by
    intro i
    norm_num [serverAlwaysRedirect, exRedirect5]
  have hredir : ∀ i, isRedirectResponse (serverAlwaysRedirect i) = true := fun i => rfl
  have h := redirect_limit_exact parseUrlW resolveW serverAlwaysRedirect exRedirect5 urlW
    hparse hfollow hfast hredir
  exact ⟨hparse, hfollow, hfast, hredir, h.1, h.2⟩

/-- C4: every request the executor puts on the wire for a job — the initial
request and every redirect hop, whatever the redirect status (the redirect
branch accepts any 300-399 response, 301 and 302 included) — carries the
job's original method, headers, and body. -/
theorem redirect_hops_resend_same_request (parseUrl : String → Option Url)
    (resolve : String → Url → Url) (server : Nat → ServerResponse) (ex : Execute) :
    ∀ r ∈ (executeHttp1 parseUrl resolve server ex).trace,
      r.method = ex.request.method ∧ r.headers = ex.request.headers ∧
        r.body = ex.request.body := by
  intro r hr
  rw [executeHttp1] at hr
  cases hp : parseUrl ex.request.url with
  | none =>
      rw [hp] at hr
      simp at hr
  | some url =>
      rw [hp] at hr
      exact doHttp1Request_trace_aux resolve server ex
        (ex.optionsD.maxRedirects.getD 10) url (ex.optionsD.httpVersion.getD "1.1")
        (ex.optionsD.followRedirects.getD true) (ex.optionsD.maxRedirects.getD 10) 0
        (by omega) r hr

theorem redirect_hops_resend_same_request_witness :
    reqTimeoutW ∈ (executeHttp1 parseUrlW resolveW serverDelayed exTimeout).trace ∧
    reqTimeoutW.method = exTimeout.request.method ∧
    reqTimeoutW.headers = exTimeout.request.headers ∧
    reqTimeoutW.body = exTimeout.request.body := by
  have hm : reqTimeoutW ∈ (executeHttp1 parseUrlW resolveW serverDelayed exTimeout).trace := by
    rw [executeHttp1]
    simp only [parseUrlW, exTimeout, Execute.optionsD]
    norm_num
    rw [doHttp1Request]
    simp +decide [serverDelayed, reqTimeoutW, urlW]
  exact ⟨hm, (redirect_hops_resend_same_request parseUrlW resolveW serverDelayed exTimeout
    reqTimeoutW hm).1, (redirect_hops_resend_same_request parseUrlW resolveW serverDelayed
    exTimeout reqTimeoutW hm).2.1, (redirect_hops_resend_same_request parseUrlW resolveW
    serverDelayed exTimeout reqTimeoutW hm).2.2⟩


/-- C5: for every Execute message — whatever the URL, the network's
behaviour, or the HTTP version dispatched to — `handleExecute` performs
exactly one send, of a Result for the job, and that Result is either a
success carrying a normalized response and no error, or an error carrying a
descriptive message and no response; no exception escapes (the function is
total on every outcome of the underlying executor). -/
theorem handleExecute_exactly_one_result (http2Exec : Execute → Nat × Except String NormResponse)
    (parseUrl : String → Option Url) (resolve : String → Url → Url)
    (server : Nat → ServerResponse) (ex : Execute) :
    ∃ r, handleExecute http2Exec parseUrl resolve server ex = [r] ∧ r.jobId = ex.jobId ∧
      ((r.status = ResultStatus.success ∧ r.response.isSome = true ∧ r.error = none) ∨
        (r.status = ResultStatus.error ∧ r.error.isSome = true ∧ r.response = none)) := by
  have mkResult_jobId : ∀ (j : String) (t : Nat) (o : Except String NormResponse),
      (mkResult j t o).jobId = j := by
    intro j t o
    cases o <;> rfl
  have mkResult_spec : ∀ (j : String) (t : Nat) (o : Except String NormResponse),
      ((mkResult j t o).status = ResultStatus.success ∧ (mkResult j t o).response.isSome = true ∧
          (mkResult j t o).error = none) ∨
        ((mkResult j t o).status = ResultStatus.error ∧ (mkResult j t o).error.isSome = true ∧
          (mkResult j t o).response = none) := by
    intro j t o
    cases o with
    | error e => exact Or.inr ⟨rfl, rfl, rfl⟩
    | ok a => exact Or.inl ⟨rfl, rfl, rfl⟩
  rw [handleExecute]
  split
  · exact ⟨_, rfl, mkResult_jobId _ _ _, mkResult_spec _ _ _⟩
  · exact ⟨_, rfl, mkResult_jobId _ _ _, mkResult_spec _ _ _⟩

/-- C6: with `followRedirects = false`, a 302 answer with a (non-empty)
Location header is returned as the final result: one single request is
issued, the result status is 302, the body is passed through as received,
and the Location header survives normalization. -/
theorem no_follow_returns_302_verbatim (parseUrl : String → Option Url)
    (resolve : String → Url → Url) (server : Nat → ServerResponse) (ex : Execute)
    (url : Url) (l : String)
    (hparse : parseUrl ex.request.url = some url)
    (hfollow : ex.optionsD.followRedirects = some false)
    (hfast : (server 0).durationMs < ex.timeoutMs.getD 30000)
    (hstatus : (server 0).statusCode = 302)
    (hloc : (server 0).headers.lookup "location" = some (HV.str l))
    (hl : l ≠ "") :
    executeHttp1 parseUrl resolve server ex =
      { trace := [{ url := url, method := ex.request.method, headers := ex.request.headers,
                    body := ex.request.body, timeout := ex.timeoutMs.getD 30000 }]
        elapsedMs := (server 0).durationMs
        outcome := Except.ok { status := 302, headers := normalizeHeaders (server 0).headers,
                               body := (server 0).body } } ∧
    (normalizeHeaders (server 0).headers).lookup "location" = some l := by
  constructor
  · rw [executeHttp1, hparse]
    simp only [hfollow, Option.getD_some]
    rw [doHttp1Request]
    rw [if_neg (Nat.not_le.mpr hfast)]
    simp only [Bool.false_and, Bool.false_eq_true, if_false]
    simp [normalizeResponse, hstatus]
  · have := lookup_normalizeHeaders "location" (server 0).headers (HV.str l) hloc
      (by simp [jsTruthy, hl])
    simpa [joinHV] using this

theorem no_follow_returns_302_verbatim_witness :
    parseUrlW exNoFollow.request.url = some urlW ∧
    exNoFollow.optionsD.followRedirects = some false ∧
    (server302 0).durationMs < exNoFollow.timeoutMs.getD 30000 ∧
    (server302 0).statusCode = 302 ∧
    (server302 0).headers.lookup "location" = some (HV.str "/elsewhere") ∧
    "/elsewhere" ≠ "" ∧
    executeHttp1 parseUrlW resolveW server302 exNoFollow =
      { trace := [{ url := urlW, method := "POST", headers := some [("x-a", "1")],
                    body := some "payload", timeout := 30000 }]
        elapsedMs := 0
        outcome := Except.ok { status := 302,
                               headers := [("location", "/elsewhere"),
                                           ("content-type", "text/html")],
                               body := "<a>moved</a>" } } ∧
    (normalizeHeaders (server302 0).headers).lookup "location" = some "/elsewhere" := by
  have hparse : parseUrlW exNoFollow.request.url = some urlW := by
    norm_num [parseUrlW, exNoFollow]
  have hfollow : exNoFollow.optionsD.followRedirects = some false := rfl
  have hfast : (server302 0).durationMs < exNoFollow.timeoutMs.getD 30000 := by
    norm_num [server302, exNoFollow]
  have hstatus : (server302 0).statusCode = 302 := rfl
  have hloc : (server302 0).headers.lookup "location" = some (HV.str "/elsewhere") := by
    simp [server302, List.lookup]
  have hl : "/elsewhere" ≠ "" := by decide
  have h := no_follow_returns_302_verbatim parseUrlW resolveW server302 exNoFollow urlW
    "/elsewhere" hparse hfollow hfast hstatus hloc hl
  refine ⟨hparse, hfollow, hfast, hstatus, hloc, hl, ?_, h.2⟩
  have h1 := h.1
  simp only [exNoFollow, server302] at h1 ⊢
  rw [h1]
  simp +decide [normalizeHeaders, jsTruthy, joinHV]

/-- C10: on the HTTP/1 path the job's outcome is independent of whether
`httpVersion` is unset, `"1.0"`, or `"1.1"`: two executions of the same
Execute message differing only in that choice issue identical request
sequences and produce identical Results, because the value is threaded
through `doHttp1Request` but never consulted. -/
theorem httpVersion_noninterference (http2Exec : Execute → Nat × Except String NormResponse)
    (parseUrl : String → Option Url) (resolve : String → Url → Url)
    (server : Nat → ServerResponse) (ex : Execute) (hv1 hv2 : Option String)
    (h1 : hv1 = none ∨ hv1 = some "1.0" ∨ hv1 = some "1.1")
    (h2 : hv2 = none ∨ hv2 = some "1.0" ∨ hv2 = some "1.1") :
    executeHttp1 parseUrl resolve server (withHttpVersion ex hv1)
      = executeHttp1 parseUrl resolve server (withHttpVersion ex hv2) ∧
    handleExecute http2Exec parseUrl resolve server (withHttpVersion ex hv1)
      = handleExecute http2Exec parseUrl resolve server (withHttpVersion ex hv2) := by
  have hexec : executeHttp1 parseUrl resolve server (withHttpVersion ex hv1)
      = executeHttp1 parseUrl resolve server (withHttpVersion ex hv2) := by
    have hu1 : (withHttpVersion ex hv1).request.url = ex.request.url := rfl
    have hu2 : (withHttpVersion ex hv2).request.url = ex.request.url := rfl
    rw [executeHttp1, executeHttp1, hu1, hu2]
    cases hp : parseUrl ex.request.url with
    | none => rfl
    | some url =>
        have hf1 : (withHttpVersion ex hv1).optionsD.followRedirects
            = ex.optionsD.followRedirects := rfl
        have hm1 : (withHttpVersion ex hv1).optionsD.maxRedirects
            = ex.optionsD.maxRedirects := rfl
        have hf2 : (withHttpVersion ex hv2).optionsD.followRedirects
            = ex.optionsD.followRedirects := rfl
        have hm2 : (withHttpVersion ex hv2).optionsD.maxRedirects
            = ex.optionsD.maxRedirects := rfl
        simp only [hf1, hm1, hf2, hm2]
        exact doHttp1Request_congr resolve server (withHttpVersion ex hv1)
          (withHttpVersion ex hv2) rfl rfl url _ _
          (ex.optionsD.followRedirects.getD true) (ex.optionsD.maxRedirects.getD 10) 0
  refine ⟨hexec, ?_⟩
  have hne1 : ¬((withHttpVersion ex hv1).optionsD.httpVersion = some "2") := by
    rcases h1 with h | h | h <;> subst h <;> simp [withHttpVersion, Execute.optionsD]
  have hne2 : ¬((withHttpVersion ex hv2).optionsD.httpVersion = some "2") := by
    rcases h2 with h | h | h <;> subst h <;> simp [withHttpVersion, Execute.optionsD]
  rw [handleExecute, handleExecute, if_neg hne1, if_neg hne2, hexec]
  rw [show (withHttpVersion ex hv1).jobId = ex.jobId from rfl,
      show (withHttpVersion ex hv2).jobId = ex.jobId from rfl]

theorem httpVersion_noninterference_witness :
    ((none : Option String) = none ∨ (none : Option String) = some "1.0" ∨
      (none : Option String) = some "1.1") ∧
    (some "1.0" = (none : Option String) ∨ some "1.0" = some "1.0" ∨
      some "1.0" = some "1.1") ∧
    executeHttp1 parseUrlW resolveW serverSlowHops (withHttpVersion exTimeout none)
      = executeHttp1 parseUrlW resolveW serverSlowHops (withHttpVersion exTimeout (some "1.0")) ∧
    handleExecute http2ExecW parseUrlW resolveW serverSlowHops (withHttpVersion exTimeout none)
      = handleExecute http2ExecW parseUrlW resolveW serverSlowHops
          (withHttpVersion exTimeout (some "1.0")) := by
  have h1 : (none : Option String) = none ∨ (none : Option String) = some "1.0" ∨
      (none : Option String) = some "1.1" := Or.inl rfl
  have h2 : some "1.0" = (none : Option String) ∨ some "1.0" = some "1.0" ∨
      some "1.0" = some "1.1" := Or.inr (Or.inl rfl)
  have h := httpVersion_noninterference http2ExecW parseUrlW resolveW serverSlowHops
    exTimeout none (some "1.0") h1 h2
  exact ⟨h1, h2, h.1, h.2⟩


/-- C7: a `browser:start` arriving while the attached session is active is a
silent no-op — the runner state is unchanged (no new session, no pending
marker) and no Ack of any status is sent — whatever the requested session id
and whatever a start attempt would have done. -/
theorem browser_start_active_silent_noop (startOk : Bool) (errMsg : String)
    (m : BrowserStart) (s : RunnerState) (h : activeSessionCheck s = true) :
    handleBrowserStart startOk errMsg m s = (s, []) := by
  rw [handleBrowserStart, if_pos h]

theorem browser_start_active_silent_noop_witness :
    activeSessionCheck runnerActiveW = true ∧
    handleBrowserStart false "launch failed" { sessionId := "B" } runnerActiveW
      = (runnerActiveW, []) := by
  have h : activeSessionCheck runnerActiveW = true := rfl
  exact ⟨h, browser_start_active_silent_noop false "launch failed" { sessionId := "B" }
    runnerActiveW h⟩

/-- C8: `browser:stop` detaches the session and acknowledges with
`status = "stopped"` exactly when the attached session's id equals the
requested id; when the id does not match — or no channel or session exists —
the state is left untouched and nothing is sent. -/
theorem browser_stop_match_or_noop (m : BrowserStop) (s : RunnerState) :
    (∀ w sess, s.browserWSS = some w → w.session = some sess →
      sess.sessionId = m.sessionId →
        handleBrowserStop m s =
          ({ s with browserWSS := some { w with session := none } },
            [{ sessionId := m.sessionId, status := .stopped, error := none }])) ∧
    ((∀ w sess, s.browserWSS = some w → w.session = some sess →
        sess.sessionId ≠ m.sessionId) →
      handleBrowserStop m s = (s, [])) := by
  constructor
  · intro w sess hw hs hid
    simp [handleBrowserStop, hw, hs, hid]
  · intro hmis
    cases hw : s.browserWSS with
    | none => simp [handleBrowserStop, hw]
    | some w =>
        cases hs : w.session with
        | none => simp [handleBrowserStop, hw, hs]
        | some sess => simp [handleBrowserStop, hw, hs, hmis w sess hw hs]

theorem browser_stop_match_or_noop_witness :
    handleBrowserStop { sessionId := "A" } runnerActiveW
      = ({ runnerActiveW with
            browserWSS := some { connected := true, session := none } },
          [{ sessionId := "A", status := .stopped, error := none }]) ∧
    handleBrowserStop { sessionId := "B" } runnerActiveW = (runnerActiveW, []) := by
  constructor
  · have h := (browser_stop_match_or_noop { sessionId := "A" } runnerActiveW).1
      { connected := true, session := some sessionAW } sessionAW rfl rfl rfl
    exact h
  · exact (browser_stop_match_or_noop { sessionId := "B" } runnerActiveW).2
      (by intro w sess hw hs; rw [show w = { connected := true, session := some sessionAW }
            from (Option.some.inj hw).symm] at hs
          rw [show sess = sessionAW from (Option.some.inj hs).symm]
          decide)

/-- C9: an inbound `browser:input` frame's action is forwarded to the
attached session exactly when a session is attached, its id equals the
frame's id, and it reports itself active; the only other behaviour is
dropping the frame, and nothing is ever sent outward while handling it. -/
theorem input_forwarded_iff (session : Option BrowserSession) (m : BrowserInputEvent) :
    ((wssHandleMessage session m).1 = some m.action ↔
      ∃ sess, session = some sess ∧ sess.sessionId = m.sessionId ∧ sess.isActive = true) ∧
    ((wssHandleMessage session m).1 = some m.action ∨ (wssHandleMessage session m).1 = none) ∧
    (wssHandleMessage session m).2 = [] := by
  cases session with
  | none =>
      refine ⟨⟨fun h => by simp [wssHandleMessage] at h, ?_⟩, Or.inr rfl, rfl⟩
      rintro ⟨sess, hs, -, -⟩
      exact Option.noConfusion hs
  | some sess =>
      by_cases hc : sess.sessionId = m.sessionId ∧ sess.isActive = true
      · refine ⟨⟨fun _ => ⟨sess, rfl, hc.1, hc.2⟩, fun _ => ?_⟩, ?_, ?_⟩
        · simp [wssHandleMessage, hc.1, hc.2]
        · exact Or.inl (by simp [wssHandleMessage, hc.1, hc.2])
        · simp [wssHandleMessage, hc.1, hc.2]
      · have hfalse : (sess.sessionId = m.sessionId && sess.isActive) = false := by
          by_cases hid : sess.sessionId = m.sessionId
          · by_cases ha : sess.isActive = true
            · exact absurd ⟨hid, ha⟩ hc
            · simp [hid, Bool.eq_false_iff.mpr ha]
          · simp [hid]
        refine ⟨⟨fun h => ?_, fun h => ?_⟩, ?_, ?_⟩
        · rw [wssHandleMessage] at h
          simp only [hfalse] at h
          simp at h
        · obtain ⟨sess2, hs2, hid2, ha2⟩ := h
          obtain rfl := Option.some.inj hs2
          exact absurd ⟨hid2, ha2⟩ hc
        · refine Or.inr ?_
          rw [wssHandleMessage]
          simp only [hfalse]
          simp
        · rw [wssHandleMessage]
          simp only [hfalse]
          simp


/-- C3: the at-most-one-active-session invariant is violated by an
interleaving of two `browser:start` commands.  A second start arriving while
the first `session.start()` is still in flight passes the duplicate-start
guard (which only sees the attached session), and once both starts complete
the process holds two `BrowserSession` objects that simultaneously report
`isActive()` — the state `c5`, reachable from the initial state. -/
theorem browser_double_active_reachable :
    Relation.ReflTransGen CStep cInit c5 ∧ twoActiveSessions c5 = true := by
  constructor
  · have s1 : CStep cInit c1 := CStep.recvStartNoWss cInit mA rfl rfl
    have s2 : CStep c1 c2 := CStep.wssConnectedPending c1 mA rfl rfl rfl
    have s3 : CStep c2 c3 := CStep.recvStartConnected c2 mB rfl rfl rfl
    have s4 : CStep c3 c4 :=
      CStep.startDoneNoAttach c3 0 { msg := mA, sess := 0, phase := .starting } rfl rfl rfl
    have s5 : CStep c4 c5 :=
      CStep.startDoneWithAttach c4 0 { msg := mB, sess := 1, phase := .starting } 0 rfl rfl rfl
    exact Relation.ReflTransGen.head s1 (Relation.ReflTransGen.head s2
      (Relation.ReflTransGen.head s3 (Relation.ReflTransGen.head s4
        (Relation.ReflTransGen.single s5))))
  · rfl

end GleipRunner







